import Mathlib

/-!
Verification of the real-time English translator pipeline
(`src/english_translator.py`, class `RealtimeTranslator`).

The development shallowly embeds the pipeline's pure data transformations
(resampling / PCM16 quantization) over exact rationals and integers, and its
control flow (the processing-worker loop, lifecycle, temp-file handling) as
total functions over explicit outcome types that enumerate the branch points
of the source (subprocess success / timeout / crash, HTTP success / request
error).  External collaborators (the whisper-cli subprocess, the Ollama HTTP
endpoint, the sounddevice input stream) appear as oracle parameters, matching
the spec's treatment of them as opaque services.
-/

namespace EnglishTranslator

/-! ## Quantization (source lines 110–113)

`_transcribe_chunk` converts the resampled float samples to PCM16 by
`(audio_resampled * 32767).astype(np.int16)`.  numpy's `astype(np.int16)` is
a C-style cast: the float value is truncated toward zero and the resulting
integer is reduced to 16-bit two's complement (wraparound, no saturation).
Samples are modelled as exact rationals. -/

/-- Truncation toward zero of a rational: the C / numpy float→int conversion
for finite values whose truncation fits the intermediate integer width. -/
def truncQ (x : ℚ) : ℤ :=
  if 0 ≤ x then ⌊x⌋ else -⌊-x⌋

/-- Reduction of an integer to 16-bit two's complement (the low 16 bits of
the cast, read back as a signed `int16`). -/
def toInt16 (n : ℤ) : ℤ :=
  (n + 32768) % 65536 - 32768

/-- `numpy.ndarray.astype(np.int16)` applied to one finite float value:
truncate toward zero, wrap to `int16`. -/
def astypeInt16 (x : ℚ) : ℤ :=
  toInt16 (truncQ x)

/-- The quantization step of `_transcribe_chunk` (line 113) on one sample:
`(sample * 32767).astype(np.int16)`. -/
def quantizeSample (s : ℚ) : ℤ :=
  astypeInt16 (s * 32767)

/-- The quantizer as the spec describes it (§4.2): `round(sample * 32767)`,
clamping out-of-range values to the signed 16-bit range.  Stated from the
spec's words, for comparison with `quantizeSample`, the embedding of the
code. -/
def roundClampQuantize (s : ℚ) : ℤ :=
  max (-32768) (min 32767 (round (s * 32767)))

/-- Floor of a quotient of naturals cast into `ℚ`, as integer division. -/
lemma floor_natCast_div (a b : ℕ) : ⌊((a : ℚ) / (b : ℚ))⌋ = (a : ℤ) / (b : ℤ) := by
  have h := Rat.floor_intCast_div_natCast (a : ℤ) b
  push_cast at h
  exact h

lemma truncQ_of_nonneg (x : ℚ) (h : 0 ≤ x) : truncQ x = ⌊x⌋ := by
  simp [truncQ, h]

lemma toInt16_eq_self (n : ℤ) (h1 : -32768 ≤ n) (h2 : n ≤ 32767) : toInt16 n = n := by
  have h : (n + 32768) % 65536 = n + 32768 :=
    Int.emod_eq_of_lt (by omega) (by omega)
  simp only [toInt16, h]
  omega

/-- Truncation toward zero never grows the magnitude past an integer bound. -/
lemma truncQ_bounds (x : ℚ) (m : ℤ) (h1 : -(m : ℚ) ≤ x) (h2 : x ≤ (m : ℚ)) :
    -m ≤ truncQ x ∧ truncQ x ≤ m := by
  unfold truncQ
  by_cases hx : 0 ≤ x
  · rw [if_pos hx]
    have hub : ⌊x⌋ ≤ m := by
      have := Int.floor_mono h2
      simpa using this
    have hlb : (0 : ℤ) ≤ ⌊x⌋ := Int.floor_nonneg.mpr hx
    have hm : 0 ≤ m := le_trans hlb hub
    exact ⟨by omega, hub⟩
  · rw [if_neg hx]
    push_neg at hx
    have hnx1 : 0 ≤ -x := by linarith
    have hnx2 : -x ≤ (m : ℚ) := by linarith
    have hub : ⌊-x⌋ ≤ m := by
      have := Int.floor_mono hnx2
      simpa using this
    have hlb : (0 : ℤ) ≤ ⌊-x⌋ := Int.floor_nonneg.mpr hnx1
    have hm : 0 ≤ m := le_trans hlb hub
    constructor <;> omega

/-- **C3** (counterexample).  The claim says quantization equals
`round(sample * 32767)` with clamping.  At the in-range sample
`1007 / 327670` (where `sample * 32767 = 100.7`) the code's cast truncates to
`100` while the claimed round-and-clamp yields `101`. -/
theorem c3_counterexample :
    quantizeSample (1007 / 327670) = 100 ∧ roundClampQuantize (1007 / 327670) = 101 := by
  constructor
  · have e1 : (1007 : ℚ) / 327670 * 32767 = ((1007 : ℕ) : ℚ) / ((10 : ℕ) : ℚ) := by
      push_cast
      norm_num
    unfold quantizeSample astypeInt16
    rw [e1, truncQ, if_pos (by positivity), floor_natCast_div]
    decide
  · have e1 : (1007 : ℚ) / 327670 * 32767 + 1 / 2 = ((506 : ℕ) : ℚ) / ((5 : ℕ) : ℚ) := by
      push_cast
      norm_num
    unfold roundClampQuantize
    rw [round_eq, e1, floor_natCast_div]
    decide

/-- **C3** (amended).  The quantization of `_transcribe_chunk` (line 113) is a
C-style cast: truncation toward zero of `sample * 32767` with two's-complement
wraparound to 16 bits — not rounding, and with no clamping of out-of-range
values.  Nevertheless, for every input sample in `[-1, 1]` the quantized value
lies in `[-32767, 32767]`. -/
theorem c3_quantize_trunc_in_range (s : ℚ) (h1 : -1 ≤ s) (h2 : s ≤ 1) :
    quantizeSample s = truncQ (s * 32767) ∧
    -32767 ≤ quantizeSample s ∧ quantizeSample s ≤ 32767 := by
  have hl : -(((32767 : ℤ) : ℚ)) ≤ s * 32767 := by
    push_cast
    nlinarith
  have hr : s * 32767 ≤ ((32767 : ℤ) : ℚ) := by
    push_cast
    nlinarith
  obtain ⟨hbl, hbr⟩ := truncQ_bounds (s * 32767) 32767 hl hr
  have hid : quantizeSample s = truncQ (s * 32767) := by
    unfold quantizeSample astypeInt16
    exact toInt16_eq_self _ (by omega) hbr
  exact ⟨hid, by omega, by omega⟩

/-- Witness for `c3_quantize_trunc_in_range` at the sample `1/2`. -/
theorem c3_quantize_trunc_in_range_witness :
    (-1 ≤ (1 / 2 : ℚ) ∧ (1 / 2 : ℚ) ≤ 1) ∧
    (quantizeSample (1 / 2) = truncQ (1 / 2 * 32767) ∧
      -32767 ≤ quantizeSample (1 / 2) ∧ quantizeSample (1 / 2) ≤ 32767) :=
  ⟨⟨by norm_num, by norm_num⟩,
    c3_quantize_trunc_in_range (1 / 2) (by norm_num) (by norm_num)⟩

/-! ## Capture and resampling (source lines 21–27, 59–77, 110–113)

`RealtimeTranslator.__init__` fixes `sample_rate = 44100`,
`target_sample_rate = 16000` and `chunk_duration = 2`; the rates and duration
are modelled as a configuration record so the spec's quantified sample-count
property can be stated.  `_record_chunks` opens the input stream with
`blocksize = int(sample_rate * chunk_duration)`, so each callback delivers
exactly that many frames of the device signal. -/

structure Config where
  sample_rate : ℕ
  target_sample_rate : ℕ
  chunk_duration : ℕ
deriving DecidableEq

/-- The attribute values set by `__init__` (lines 23–25). -/
def defaultConfig : Config := ⟨44100, 16000, 2⟩

/-- `chunk_samples = int(self.sample_rate * self.chunk_duration)` (line 61);
exact for the integer attributes of the class. -/
def chunk_samples (cfg : Config) : ℕ := cfg.sample_rate * cfg.chunk_duration

/-- A chunk delivered by the capture callback: `blocksize` consecutive samples
of the device signal `f` (lines 63–74). -/
def captureChunk (cfg : Config) (f : ℕ → ℚ) : List ℚ :=
  (List.range (chunk_samples cfg)).map f

/-- `num_samples = int(len(audio_array) * self.target_sample_rate /
self.sample_rate)` (line 111); the operands are exact integers, so the float
quotient is exact (correctly-rounded division of exactly representable values)
and `int` truncates it, i.e. natural division. -/
def num_samples (cfg : Config) (len : ℕ) : ℕ :=
  len * cfg.target_sample_rate / cfg.sample_rate

/-- Modelled from the spec: `scipy.signal.resample` is an external library
routine (absent from this repository); spec §4.2 specifies "linear/band-limited
resampling" returning `num` output samples.  The model realises it as linear
interpolation over exact rationals, keeping the library's contract of being a
pure function of the input that returns exactly `num` samples. -/
def interpAt (x : List ℚ) (num i : ℕ) : ℚ :=
  let p : ℚ := (i : ℚ) * (x.length : ℚ) / (num : ℚ)
  let j : ℕ := (⌊p⌋).toNat
  (1 - (p - (j : ℚ))) * x.getD j 0 + (p - (j : ℚ)) * x.getD (j + 1) 0

def resample (x : List ℚ) (num : ℕ) : List ℚ :=
  (List.range num).map (interpAt x num)

/-- Lines 110–113 of `_transcribe_chunk`: flatten the chunk, compute the
target length, resample, quantize each sample to PCM16. -/
def resampleAndQuantize (cfg : Config) (chunk : List ℚ) : List ℤ :=
  (resample chunk (num_samples cfg chunk.length)).map quantizeSample

lemma resample_length (x : List ℚ) (num : ℕ) : (resample x num).length = num := by
  unfold resample
  rw [List.length_map, List.length_range]

/-- **C5**.  A chunk captured at rate `R` for duration `D` holds exactly
`R * D` samples, and its resampled form holds `16000 * D` samples, within the
claimed tolerance of one sample (the count is in fact exact). -/
theorem c5_chunk_sample_counts (R D : ℕ) (f : ℕ → ℚ) (hR : 0 < R) :
    (captureChunk ⟨R, 16000, D⟩ f).length = R * D ∧
    |((resampleAndQuantize ⟨R, 16000, D⟩ (captureChunk ⟨R, 16000, D⟩ f)).length : ℤ)
        - 16000 * D| ≤ 1 := by
  have hlen : (captureChunk ⟨R, 16000, D⟩ f).length = R * D := by
    simp [captureChunk, chunk_samples]
  refine ⟨hlen, ?_⟩
  have h2 : (resampleAndQuantize ⟨R, 16000, D⟩ (captureChunk ⟨R, 16000, D⟩ f)).length
      = 16000 * D := by
    rw [resampleAndQuantize, List.length_map, resample_length, hlen, num_samples]
    have h3 : R * D * 16000 = R * (16000 * D) := by ring
    simp only [h3]
    exact Nat.mul_div_cancel_left _ hR
  rw [h2]
  simp

/-- Witness for `c5_chunk_sample_counts` at the code's own configuration:
44100 Hz capture, 2-second chunks, zero signal. -/
theorem c5_chunk_sample_counts_witness :
    0 < 44100 ∧
    ((captureChunk ⟨44100, 16000, 2⟩ fun _ => 0).length = 44100 * 2 ∧
      |((resampleAndQuantize ⟨44100, 16000, 2⟩
          (captureChunk ⟨44100, 16000, 2⟩ fun _ => 0)).length : ℤ) - 16000 * 2| ≤ 1) :=
  ⟨by norm_num, c5_chunk_sample_counts 44100 2 (fun _ => 0) (by norm_num)⟩

/-- **C9**.  The resample-and-quantize transformation is deterministic: two
applications to the same chunk under the same configuration produce identical
PCM16 output.  The embedding is a pure function of the chunk and the rates:
`_transcribe_chunk` lines 110–113 read no other state. -/
theorem c9_resample_quantize_deterministic (cfg₁ cfg₂ : Config) (c₁ c₂ : List ℚ)
    (hc : c₁ = c₂) (hcfg : cfg₁ = cfg₂) :
    resampleAndQuantize cfg₁ c₁ = resampleAndQuantize cfg₂ c₂ := by
  subst hc
  subst hcfg
  rfl

/-- Witness for `c9_resample_quantize_deterministic` on a one-sample chunk. -/
theorem c9_resample_quantize_deterministic_witness :
    resampleAndQuantize defaultConfig [1 / 2] = resampleAndQuantize defaultConfig [1 / 2] :=
  c9_resample_quantize_deterministic defaultConfig defaultConfig [1 / 2] [1 / 2] rfl rfl

/-! ## Recognition, translation and the processing worker
(source lines 79–100, 102–148, 150–183)

The external calls are modelled by outcome types enumerating the branch
points of the source: for recognition, subprocess success / `TimeoutExpired` /
`CalledProcessError` (from `check=True`, i.e. engine crash or bad exit
status) / any other exception; for translation, HTTP success /
`RequestException` (network error, timeout, or `raise_for_status`) / any
other exception. -/

/-- Python `str.strip()`: drop leading and trailing whitespace. -/
def isSpaceChar (c : Char) : Bool :=
  c = ' ' || c = '\t' || c = '\n' || c = '\r' || c = '\x0b' || c = '\x0c'

def pyStrip (s : String) : String :=
  ⟨((s.data.dropWhile isSpaceChar).reverse.dropWhile isSpaceChar).reverse⟩

/-- Python `needle in hay` on strings: substring containment. -/
def containsSub (needle hay : String) : Bool :=
  (List.range (hay.data.length + 1)).any fun i => needle.data.isPrefixOf (hay.data.drop i)

def BLANK_AUDIO : String := "[BLANK_AUDIO]"

inductive RecogOutcome
  | success (stdout : String)
  | timeout
  | crash
  | exn
deriving DecidableEq

/-- `_transcribe_chunk` (lines 102–148) viewed through its recognition
outcome: the returned transcription (`None` on any failure or empty output)
and the diagnostic lines it prints.  On success the result is
`result.stdout.strip()`, or `None` when that is empty (lines 137–138); a
timeout prints one line (line 141); `CalledProcessError` (engine crash, bad
exit status) and every other exception return `None` silently
(lines 145–148). -/
def transcribe_chunk : RecogOutcome → Option String × List String
  | .success out => (if pyStrip out = "" then none else some (pyStrip out), [])
  | .timeout => (none, ["Transcription timeout"])
  | .crash => (none, [])
  | .exn => (none, [])

inductive TransOutcome
  | success (response : String)
  | requestError (msg : String)
  | exn
deriving DecidableEq

/-- `_translate_text` (lines 150–183): on a 2xx response returns the
`response` field stripped; a `RequestException` (network failure, timeout,
`raise_for_status`) prints one line and returns `None` (lines 179–181); any
other exception returns `None` silently (lines 182–183). -/
def translate_text : TransOutcome → Option String × List String
  | .success r => (some (pyStrip r), [])
  | .requestError m => (none, ["Translation error: " ++ m])
  | .exn => (none, [])

structure ChunkOutcome where
  recog : RecogOutcome
  trans : TransOutcome
deriving DecidableEq

/-- The body of one `_process_chunks` iteration for a dequeued chunk
(lines 86–95): transcribe; if the transcription is truthy and does not
contain the blank-audio sentinel, translate; if the translation is truthy,
print it (via `_print_translation`).  Returns the printed output line, if
any, and the diagnostic lines, in print order. -/
def process_one (o : ChunkOutcome) : Option String × List String :=
  match (transcribe_chunk o.recog).1 with
  | none => (none, (transcribe_chunk o.recog).2)
  | some t =>
    if containsSub BLANK_AUDIO t then (none, (transcribe_chunk o.recog).2)
    else
      match (translate_text o.trans).1 with
      | none => (none, (transcribe_chunk o.recog).2 ++ (translate_text o.trans).2)
      | some tr =>
        (if tr = "" then none else some tr,
          (transcribe_chunk o.recog).2 ++ (translate_text o.trans).2)

/-- One observed iteration of the worker loop that consumed a chunk: either
the body ran to a result, or an exception escaped to the loop's handler
(lines 99–100), which prints one line and continues. -/
inductive IterOutcome
  | chunk (o : ChunkOutcome)
  | loopExn (msg : String)
deriving DecidableEq

def iter_result : IterOutcome → Option String × List String
  | .chunk o => process_one o
  | .loopExn m => (none, ["Error processing chunk: " ++ m])

/-- Observable events of the worker, indexed by the dequeue position of the
chunk being processed. -/
inductive Event
  | begin (i : ℕ)
  | log (i : ℕ) (msg : String)
  | emit (i : ℕ) (line : String)
deriving DecidableEq

def evChunk : Event → ℕ
  | .begin i => i
  | .log i _ => i
  | .emit i _ => i

def isBegin : Event → Bool
  | .begin _ => true
  | _ => false

/-- The events of the iteration that processes the `i`-th dequeued chunk:
processing begins, diagnostics are printed during the stage calls, and the
translated line (if any) is printed last. -/
def iterEvents (i : ℕ) (o : IterOutcome) : List Event :=
  Event.begin i ::
    ((iter_result o).2.map (Event.log i) ++
      (match (iter_result o).1 with
       | some line => [Event.emit i line]
       | none => []))

/-- The processing worker (`_process_chunks`, lines 79–100) consuming the
queue: `queue.Queue` is FIFO and this worker is its only consumer, so chunks
are dequeued in enqueue order; `queue.Empty` polls (lines 97–98) print
nothing, consume nothing, and are elided from the schedule. -/
def runFrom : ℕ → List IterOutcome → List Event
  | _, [] => []
  | i, o :: rest => iterEvents i o ++ runFrom (i + 1) rest

def process_chunks (q : List IterOutcome) : List Event := runFrom 0 q

lemma evChunk_of_mem_iterEvents (i : ℕ) (o : IterOutcome) (e : Event)
    (he : e ∈ iterEvents i o) : evChunk e = i := by
  unfold iterEvents at he
  rcases List.mem_cons.mp he with h | h
  · subst h
    rfl
  · rcases List.mem_append.mp h with h | h
    · obtain ⟨m, _, rfl⟩ := List.mem_map.mp h
      rfl
    · rcases hm : (iter_result o).1 with _ | line
      · rw [hm] at h
        simp at h
      · rw [hm] at h
        rcases List.mem_singleton.mp h with rfl
        rfl

lemma le_evChunk_of_mem_runFrom (q : List IterOutcome) (i : ℕ) (e : Event)
    (he : e ∈ runFrom i q) : i ≤ evChunk e := by
  induction q generalizing i with
  | nil => simp [runFrom] at he
  | cons o rest ih =>
    rw [runFrom] at he
    rcases List.mem_append.mp he with h | h
    · rw [evChunk_of_mem_iterEvents i o e h]
    · exact le_trans (Nat.le_succ i) (ih (i + 1) h)

lemma sorted_map_evChunk_runFrom (q : List IterOutcome) (i : ℕ) :
    ((runFrom i q).map evChunk).Sorted (· ≤ ·) := by
  induction q generalizing i with
  | nil => simp [runFrom]
  | cons o rest ih =>
    rw [runFrom, List.map_append]
    show List.Pairwise (· ≤ ·) _
    rw [List.pairwise_append]
    refine ⟨?_, ih (i + 1), ?_⟩
    · have hconst : ∀ l : List Event, (∀ e ∈ l, evChunk e = i) →
          (l.map evChunk).Sorted (· ≤ ·) := by
        intro l
        induction l with
        | nil => simp
        | cons a t iht =>
          intro h
          rw [List.map_cons, List.sorted_cons]
          refine ⟨?_, iht fun e he => h e (List.mem_cons_of_mem a he)⟩
          intro b hb
          obtain ⟨e, he, rfl⟩ := List.mem_map.mp hb
          rw [h a (List.mem_cons_self a t), h e (List.mem_cons_of_mem a he)]
      exact hconst _ (evChunk_of_mem_iterEvents i o)
    · intro x hx y hy
      obtain ⟨ex, hex, rfl⟩ := List.mem_map.mp hx
      obtain ⟨ey, hey, rfl⟩ := List.mem_map.mp hy
      rw [evChunk_of_mem_iterEvents i o ex hex]
      exact le_trans (Nat.le_succ i) (le_evChunk_of_mem_runFrom rest (i + 1) ey hey)

lemma filter_isBegin_iterEvents (i : ℕ) (o : IterOutcome) :
    (iterEvents i o).filter isBegin = [Event.begin i] := by
  unfold iterEvents
  rw [List.filter_cons_of_pos (by rfl)]
  have htail : ((iter_result o).2.map (Event.log i) ++
      (match (iter_result o).1 with
       | some line => [Event.emit i line]
       | none => [])).filter isBegin = [] := by
    rw [List.filter_eq_nil_iff]
    intro a ha
    rcases List.mem_append.mp ha with h | h
    · obtain ⟨m, _, rfl⟩ := List.mem_map.mp h
      simp [isBegin]
    · rcases hm : (iter_result o).1 with _ | line
      · rw [hm] at h
        simp at h
      · rw [hm] at h
        rcases List.mem_singleton.mp h with rfl
        simp [isBegin]
  rw [htail]

lemma filter_isBegin_runFrom (q : List IterOutcome) (i : ℕ) :
    (runFrom i q).filter isBegin = (List.range' i q.length).map Event.begin := by
  induction q generalizing i with
  | nil => simp [runFrom]
  | cons o rest ih =>
    rw [runFrom, List.filter_append, filter_isBegin_iterEvents, List.length_cons,
      List.range'_succ, List.map_cons, ih (i + 1)]
    rfl

/-- **C7**.  FIFO processing order: the trace of the single processing worker
over any queue of chunk outcomes is sorted by dequeue position (so every
event of chunk `N` — including its emitted translation — precedes every event
of chunk `N + 1`), processing of the chunks begins exactly once each, in
enqueue order, and an emission for chunk `i` occurs strictly before the
beginning of any later chunk `j`. -/
theorem c7_fifo_processing_order (q : List IterOutcome) :
    ((process_chunks q).map evChunk).Sorted (· ≤ ·) ∧
    (process_chunks q).filter isBegin = (List.range q.length).map Event.begin ∧
    (∀ p₁ p₂ i j line,
      (process_chunks q).get? p₁ = some (Event.emit i line) →
      (process_chunks q).get? p₂ = some (Event.begin j) →
      i < j → p₁ < p₂) := by
  refine ⟨sorted_map_evChunk_runFrom q 0, ?_, ?_⟩
  · rw [process_chunks, filter_isBegin_runFrom, List.range_eq_range']
  · intro p₁ p₂ i j line h1 h2 hij
    have hp : List.Pairwise (fun a b => evChunk a ≤ evChunk b) (process_chunks q) :=
      List.pairwise_map.mp (sorted_map_evChunk_runFrom q 0)
    obtain ⟨hb1, hg1⟩ := List.get?_eq_some.mp h1
    obtain ⟨hb2, hg2⟩ := List.get?_eq_some.mp h2
    by_contra hle
    push_neg at hle
    rcases Nat.lt_or_ge p₂ p₁ with hlt | hge
    · have hrel := List.pairwise_iff_get.mp hp ⟨p₂, hb2⟩ ⟨p₁, hb1⟩ hlt
      rw [hg1, hg2] at hrel
      simp only [evChunk] at hrel
      omega
    · have heq : p₁ = p₂ := le_antisymm hge hle
      subst heq
      have : Event.emit i line = Event.begin j := hg1.symm.trans hg2
      cases this

/-- Witness for `c7_fifo_processing_order` on a two-chunk queue: the
translation of chunk 0 is emitted (trace position 1) before chunk 1 begins
(trace position 2). -/
theorem c7_fifo_processing_order_witness :
    ((process_chunks [IterOutcome.chunk ⟨RecogOutcome.success "hi", TransOutcome.success "hola"⟩,
        IterOutcome.chunk ⟨RecogOutcome.success "yo", TransOutcome.success "adios"⟩]).map
          evChunk).Sorted (· ≤ ·) ∧
    (1 : ℕ) < 2 := by
  have h := c7_fifo_processing_order
    [IterOutcome.chunk ⟨RecogOutcome.success "hi", TransOutcome.success "hola"⟩,
     IterOutcome.chunk ⟨RecogOutcome.success "yo", TransOutcome.success "adios"⟩]
  exact ⟨h.1, h.2.2 1 2 0 1 "hola" (by decide) (by decide) (by norm_num)⟩

def recogFails : RecogOutcome → Bool
  | .success _ => false
  | _ => true

def transFails : TransOutcome → Bool
  | .success _ => false
  | _ => true

/-- **C1** (counterexample).  An engine crash or bad exit status
(`CalledProcessError` raised by `check=True`, caught by the bare
`except Exception` at lines 145–148) is swallowed silently: the worker's
trace for such a chunk is just `begin` — the chunk is dropped with **no log
line**, contradicting the claim that the worker logs every recognition-stage
failure. -/
theorem c1_counterexample :
    process_chunks [IterOutcome.chunk ⟨RecogOutcome.crash, TransOutcome.exn⟩]
      = [Event.begin 0] := by
  decide

/-- **C1** (amended).  Per-chunk failure isolation: a failed recognition
stage drops the chunk (nothing emitted) and prints exactly what
`_transcribe_chunk` prints — one line on timeout, nothing at all on an engine
crash/bad exit status or other swallowed exception; a failed translation
stage likewise drops the chunk; and no per-chunk outcome (including
exceptions reaching the loop handler) prevents any chunk from being
processed: every enqueued chunk's processing begins exactly once, in order. -/
theorem c1_failure_isolation (o : ChunkOutcome) (q : List IterOutcome) :
    (recogFails o.recog = true →
      process_one o = (none, (transcribe_chunk o.recog).2)) ∧
    (o.recog = RecogOutcome.crash → process_one o = (none, [])) ∧
    (transFails o.trans = true → (process_one o).1 = none) ∧
    (process_chunks q).filter isBegin = (List.range q.length).map Event.begin := by
  refine ⟨?_, ?_, ?_, ?_⟩
  · intro h
    cases hr : o.recog with
    | success s =>
      rw [hr] at h
      simp [recogFails] at h
    | timeout => simp [process_one, hr, transcribe_chunk]
    | crash => simp [process_one, hr, transcribe_chunk]
    | exn => simp [process_one, hr, transcribe_chunk]
  · intro h
    simp [process_one, h, transcribe_chunk]
  · intro h
    have hx : (translate_text o.trans).1 = none := by
      cases ht : o.trans with
      | success s =>
        rw [ht] at h
        simp [transFails] at h
      | requestError m => simp [translate_text]
      | exn => simp [translate_text]
    unfold process_one
    cases hr : (transcribe_chunk o.recog).1 with
    | none => rfl
    | some t =>
      by_cases hc : containsSub BLANK_AUDIO t
      · simp [hc]
      · simp [hc, hx]
  · rw [process_chunks, filter_isBegin_runFrom, List.range_eq_range']

/-- Witness for `c1_failure_isolation`: an engine crash followed by a healthy
chunk — the crashed chunk is dropped silently and both chunks are begun in
order. -/
theorem c1_failure_isolation_witness :
    process_one ⟨RecogOutcome.crash, TransOutcome.exn⟩
        = (none, (transcribe_chunk RecogOutcome.crash).2) ∧
    process_one ⟨RecogOutcome.crash, TransOutcome.exn⟩ = (none, []) ∧
    (process_one ⟨RecogOutcome.crash, TransOutcome.exn⟩).1 = none ∧
    (process_chunks [IterOutcome.chunk ⟨RecogOutcome.crash, TransOutcome.exn⟩,
        IterOutcome.chunk ⟨RecogOutcome.success "hi", TransOutcome.success "hola"⟩]).filter
          isBegin
      = (List.range 2).map Event.begin := by
  obtain ⟨h1, h2, h3, h4⟩ := c1_failure_isolation ⟨RecogOutcome.crash, TransOutcome.exn⟩
    [IterOutcome.chunk ⟨RecogOutcome.crash, TransOutcome.exn⟩,
     IterOutcome.chunk ⟨RecogOutcome.success "hi", TransOutcome.success "hola"⟩]
  exact ⟨h1 rfl, h2 rfl, h3 rfl, h4⟩

/-- **C2**.  Blank-audio short-circuit: when the recognition result equals
the `[BLANK_AUDIO]` sentinel, the iteration's result is independent of the
translation outcome (the translation stage is never consulted) and nothing
is printed for the chunk. -/
theorem c2_blank_short_circuit (r : RecogOutcome) (t t' : TransOutcome)
    (h : (transcribe_chunk r).1 = some BLANK_AUDIO) :
    process_one ⟨r, t⟩ = process_one ⟨r, t'⟩ ∧ (process_one ⟨r, t⟩).1 = none := by
  have hb : containsSub BLANK_AUDIO BLANK_AUDIO = true := by decide
  constructor
  · unfold process_one
    simp only [h, hb, if_true]
  · unfold process_one
    simp only [h, hb, if_true]

/-- Witness for `c2_blank_short_circuit`: whisper-cli prints exactly the
sentinel; an available translation outcome is never used and no line is
emitted. -/
theorem c2_blank_short_circuit_witness :
    (transcribe_chunk (RecogOutcome.success "[BLANK_AUDIO]")).1 = some BLANK_AUDIO ∧
    (process_one ⟨RecogOutcome.success "[BLANK_AUDIO]", TransOutcome.success "hola"⟩
        = process_one ⟨RecogOutcome.success "[BLANK_AUDIO]", TransOutcome.exn⟩ ∧
      (process_one ⟨RecogOutcome.success "[BLANK_AUDIO]",
          TransOutcome.success "hola"⟩).1 = none) :=
  ⟨by decide, c2_blank_short_circuit _ _ _ (by decide)⟩

/-! ## Lifecycle (source lines 21–57, 59–77, 195–209)

`__init__` checks the whisper binary and model paths and exits the process on
a missing one; `start` sets `is_running` and spawns the two workers; `stop`
is a guard-checked no-op when not running and otherwise clears the flag and
joins both workers.  `threading.Thread.join` returns only when the thread has
terminated, and each worker loop exits after it next observes
`is_running = False`, finishing (settling) the stage call of its current
iteration first — the iteration bodies are the total functions modelled
above — so a joined worker is exited in the post-state. -/

structure PipelineState where
  is_running : Bool
  has_recording_thread : Bool
  has_processing_thread : Bool
  rec_exited : Bool
  proc_exited : Bool
deriving DecidableEq

/-- The attribute state `__init__` leaves behind when its path checks pass:
not running, no worker threads spawned. -/
def freshState : PipelineState := ⟨false, false, false, false, false⟩

/-- `start` (lines 41–57): returns immediately when already running;
otherwise sets the flag and spawns the recording and processing threads. -/
def start (s : PipelineState) : PipelineState :=
  if s.is_running then s
  else
    { s with
      is_running := true
      has_recording_thread := true
      has_processing_thread := true }

/-- `stop` (lines 195–209): `if not self.is_running: return` — a strict
no-op; otherwise clear the flag and join each spawned worker (the `hasattr`
guards), which blocks until that worker has exited. -/
def stop (s : PipelineState) : PipelineState :=
  if s.is_running = false then s
  else
    { s with
      is_running := false
      rec_exited := s.rec_exited || s.has_recording_thread
      proc_exited := s.proc_exited || s.has_processing_thread }

/-- `_record_chunks` (lines 70–77) through the device-open outcome of
`sd.InputStream`: on failure the constructor raises inside the recording
thread; an unhandled exception in a `threading.Thread` prints a traceback
and terminates only that thread — `is_running` and the processing worker are
untouched. -/
def record_worker (device_opens : Bool) (s : PipelineState) : PipelineState :=
  if device_opens then s else { s with rec_exited := true }

/-- **C6**.  `stop()` before `start()` is a no-op leaving the state
unchanged; `stop()` after `start()` from idle returns with the flag cleared
and both workers joined, i.e. exited (join semantics; each worker settles its
in-flight iteration and exits once it observes the cleared flag). -/
theorem c6_lifecycle (s : PipelineState) :
    (s.is_running = false → stop s = s) ∧
    (s.is_running = false →
      (stop (start s)).is_running = false ∧
      (stop (start s)).rec_exited = true ∧
      (stop (start s)).proc_exited = true) := by
  constructor
  · intro h
    simp [stop, h]
  · intro h
    simp [start, stop, h]

/-- Witness for `c6_lifecycle` at the freshly constructed pipeline state. -/
theorem c6_lifecycle_witness :
    stop freshState = freshState ∧
    ((stop (start freshState)).is_running = false ∧
      (stop (start freshState)).rec_exited = true ∧
      (stop (start freshState)).proc_exited = true) :=
  ⟨(c6_lifecycle freshState).1 rfl, (c6_lifecycle freshState).2 rfl⟩

/-! ## Startup checks (source lines 29–39) -/

inductive InitResult
  | ok (s : PipelineState)
  | exitProcess (msg : String) (code : ℕ)
deriving DecidableEq

/-- `__init__` (lines 29–39): derive the binary path from the model path,
then `sys.exit(1)` with a printed diagnostic if the binary or the model file
is missing; otherwise construction succeeds in the idle state. -/
def init_translator (binary_exists model_exists : Bool) : InitResult :=
  if binary_exists = false then InitResult.exitProcess "Binary not found" 1
  else if model_exists = false then InitResult.exitProcess "Model not found" 1
  else InitResult.ok freshState

/-- **C8** (counterexample).  When the audio input device cannot be opened,
the pipeline has already entered the running state: `start()` set the flag
and spawned both workers before `sd.InputStream` raised, so after the
capture thread dies the pipeline is still running and the processing worker
is still alive — contradicting "never enters the running state". -/
theorem c8_counterexample :
    (record_worker false (start freshState)).is_running = true ∧
    (record_worker false (start freshState)).proc_exited = false ∧
    (record_worker false (start freshState)).rec_exited = true := by
  decide

/-- **C8** (amended).  A missing recognition binary or model file aborts
construction with a printed diagnostic and exit code 1, before any running
state exists.  An audio device that cannot be opened, however, does not
prevent start: the flag is already set, only the capture thread dies (with
an unhandled-exception traceback rather than a designed report), and the
processing worker keeps running. -/
theorem c8_startup_failures (b m d : Bool) :
    (b = false → init_translator b m = InitResult.exitProcess "Binary not found" 1) ∧
    (b = true → m = false →
      init_translator b m = InitResult.exitProcess "Model not found" 1) ∧
    (d = false →
      (record_worker d (start freshState)).is_running = true ∧
      (record_worker d (start freshState)).rec_exited = true ∧
      (record_worker d (start freshState)).proc_exited = false) := by
  refine ⟨?_, ?_, ?_⟩
  · intro h
    simp [init_translator, h]
  · intro hb hm
    simp [init_translator, hb, hm]
  · intro h
    subst h
    decide

/-- Witness for `c8_startup_failures`: missing binary, missing model, and a
device that fails to open. -/
theorem c8_startup_failures_witness :
    init_translator false false = InitResult.exitProcess "Binary not found" 1 ∧
    init_translator true false = InitResult.exitProcess "Model not found" 1 ∧
    ((record_worker false (start freshState)).is_running = true ∧
      (record_worker false (start freshState)).rec_exited = true ∧
      (record_worker false (start freshState)).proc_exited = false) :=
  ⟨(c8_startup_failures false false false).1 rfl,
   (c8_startup_failures true false false).2.1 rfl rfl,
   (c8_startup_failures true false false).2.2 rfl⟩

/-! ## Temporary-file discipline of `_transcribe_chunk` (lines 102–148) -/

/-- The exit paths of `_transcribe_chunk` with respect to its temporary WAV
file: `NamedTemporaryFile` itself raising (lines 106–107, no file created;
the handler's reference to `tmp_filename` then raises `NameError`, which
propagates to the loop handler); a failure of the resample/`wav.write` block
(lines 110–114); `subprocess.TimeoutExpired` (lines 140–144);
`CalledProcessError` or any other exception from the run (lines 145–148);
and the normal path (file removed at line 135). -/
inductive TranscribeExit
  | tmpCreateFail
  | writeFail
  | runTimeout
  | runFail
  | success
deriving DecidableEq

/-- The handlers' conditional cleanup:
`if os.path.exists(tmp_filename): os.remove(tmp_filename)`
(lines 142–143 and 146–147), as a transformer of file existence. -/
def cleanupIfExists (tmpExists : Bool) : Bool :=
  if tmpExists then false else tmpExists

/-- Whether a temporary WAV file remains on disk when `_transcribe_chunk`
returns (or its exception propagates), per exit path.  On the failure paths
after creation the file still exists when the handler runs, so the handler's
conditional cleanup receives `true`. -/
def transcribe_tmpRemains : TranscribeExit → Bool
  | .tmpCreateFail => false
  | .writeFail => cleanupIfExists true
  | .runTimeout => cleanupIfExists true
  | .runFail => cleanupIfExists true
  | .success => false

/-- **C10**.  On every exit path of `_transcribe_chunk` — success,
transcription timeout, or any other transcription error — the temporary WAV
file does not outlive the call. -/
theorem c10_temp_file_removed (o : TranscribeExit) : transcribe_tmpRemains o = false := by
  cases o <;> rfl

end EnglishTranslator
